import Mathlib

/-!
Verification of the `szafka` single-slot persistence library.

The library stores one serialized value at a fixed filesystem path and
offers `save`, `get`, `exists`, `remove` (alias `flush`) in a blocking
facade (`src/sync.rs`) and a suspension facade (`src/async.rs`,
`src/lib.rs`).  We embed the filesystem and the external JSON codec as
explicit models and transcribe each facade's operations from its source
file, then prove the spec's claims about them.

Filesystem model: paths are component lists (`[]` is the root), the
world holds the set of existing directories, the files with their
contents, and a stream of injected I/O faults so that every syscall is a
possible failure point, as in the real OS.  The codec (serde_json in the
source) is an external collaborator and is a parameter: a pair of
fallible encode/decode functions.
-/

/-- A filesystem path, as its list of components from the root.
`[]` is the filesystem root. -/
abbrev FsPath := List String

/-- The filesystem world: existing directories, existing files with
their contents, and a stream of injected I/O faults.  Each primitive
syscall consumes one fault flag (an exhausted stream means no fault), so
a claim about "absent other failures" is stated with `faults = []`. -/
structure World where
  dirs : List FsPath
  files : List (FsPath × String)
  faults : List Bool
deriving Repr, DecidableEq

/-- Pop the next injected fault flag; an empty stream yields `false`. -/
def popFault (w : World) : Bool × World :=
  match w.faults with
  | [] => (false, w)
  | b :: rest => (b, { w with faults := rest })

/-- Content of the file at `p`, if a file is there. -/
def fileContent (w : World) (p : FsPath) : Option String :=
  w.files.lookup p

/-- Is there a file at `p`? -/
def fileExists (w : World) (p : FsPath) : Bool :=
  (fileContent w p).isSome

/-- Is there a directory at `p`?  The root always exists. -/
def dirExists (w : World) (p : FsPath) : Bool :=
  p.isEmpty || w.dirs.contains p

/-- `Path::exists`: anything (file or directory) at `p`. -/
def pathExists (w : World) (p : FsPath) : Bool :=
  fileExists w p || dirExists w p

/-- `Path::parent`: drop the last component; the root has no parent. -/
def parent (p : FsPath) : Option FsPath :=
  if p.isEmpty then none else some p.dropLast

/-- All nonempty prefixes of `p`, i.e. `p` and every proper ancestor
below the root; the directories `create_dir_all p` must provide. -/
def ancestors (p : FsPath) : List FsPath :=
  (List.range p.length).map (fun i => p.take (i + 1))

/-- Replace (or create) the file at `p` with content `s`. -/
def setFile (w : World) (p : FsPath) (s : String) : World :=
  { w with files := (p, s) :: w.files.filter (fun e => e.1 != p) }

/-- Delete the file entry at `p`. -/
def removeFileEntry (w : World) (p : FsPath) : World :=
  { w with files := w.files.filter (fun e => e.1 != p) }

deriving instance DecidableEq for Except

/-- A platform I/O error: `notFound` for a missing file, `other` for
every other failure (injected fault, wrong file kind, ...). -/
inductive IOErr
  | notFound
  | other
deriving Repr, DecidableEq

/-- `std::fs::create_dir_all` / `tokio::fs::create_dir_all`: creates `p`
and all missing ancestors; fails on an injected fault or when a file
occupies a component of the chain. -/
def fsCreateDirAll (w : World) (p : FsPath) : Except IOErr Unit × World :=
  let (f, w1) := popFault w
  if f then (.error .other, w1)
  else if (ancestors p).any (fun q => fileExists w1 q) then (.error .other, w1)
  else (.ok (), { w1 with dirs := ancestors p ++ w1.dirs })

/-- `OpenOptions::new().write(true).create(true).open(p)`: succeeds on
an existing file without touching its content (no truncation on open);
creates an empty file when absent and the parent directory exists; fails
on an injected fault, on a directory at `p`, or when the parent
directory is missing. -/
def fsOpenWrite (w : World) (p : FsPath) : Except IOErr Unit × World :=
  let (f, w1) := popFault w
  if f then (.error .other, w1)
  else if dirExists w1 p then (.error .other, w1)
  else if fileExists w1 p then (.ok (), w1)
  else
    match parent p with
    | none => (.error .other, w1)
    | some q => if dirExists w1 q then (.ok (), setFile w1 p "") else (.error .notFound, w1)

/-- `File::set_len(0)`: truncate the just-opened file to zero length. -/
def fsSetLen0 (w : World) (p : FsPath) : Except IOErr Unit × World :=
  let (f, w1) := popFault w
  if f then (.error .other, w1) else (.ok (), setFile w1 p "")

/-- `write_all`: write `s` as the full content of the just-truncated
file (the write cursor is at position zero). -/
def fsWriteAll (w : World) (p : FsPath) (s : String) : Except IOErr Unit × World :=
  let (f, w1) := popFault w
  if f then (.error .other, w1) else (.ok (), setFile w1 p s)

/-- `OpenOptions::new().read(true).open(p)` followed by reading the full
content: `notFound` when no file is at `p`. -/
def fsOpenRead (w : World) (p : FsPath) : Except IOErr String × World :=
  let (f, w1) := popFault w
  if f then (.error .other, w1)
  else if dirExists w1 p then (.error .other, w1)
  else
    match fileContent w1 p with
    | some s => (.ok s, w1)
    | none => (.error .notFound, w1)

/-- `std::fs::remove_file` / `tokio::fs::remove_file`. -/
def fsRemoveFile (w : World) (p : FsPath) : Except IOErr Unit × World :=
  let (f, w1) := popFault w
  if f then (.error .other, w1)
  else if fileExists w1 p then (.ok (), removeFileEntry w1 p)
  else if dirExists w1 p then (.error .other, w1)
  else (.error .notFound, w1)

/-- The external structured-text codec (serde_json in the source):
fallible encode of a value to file content and fallible decode back.
The error payload models the `serde_json::Error` message. -/
structure Codec (T : Type) where
  encode : T → Except String String
  decode : String → Except String T

/-- The library's error taxonomy, transcribed from `src/lib.rs`'s
`Error` enum: note the single `SerdeError` variant (used via `#[from]`
by both `save`'s serialization and `get`'s deserialization), and one
variant per I/O failure site. -/
inductive Error
  | SerdeError (e : String)
  | CreateParentError (e : IOErr)
  | OpenFileError (e : IOErr)
  | WriteFileError (e : IOErr)
  | RemoveFileError (e : IOErr)
  | ChangeFileLengthError (e : IOErr)
deriving Repr, DecidableEq

/-- Observable filesystem events of one operation, in execution order;
used to state the ordering of internal steps. -/
inductive Ev
  | serialize
  | createDirs (p : FsPath)
  | openW (p : FsPath)
  | truncate (p : FsPath)
  | write (p : FsPath) (s : String)
  | openR (p : FsPath)
  | removeF (p : FsPath)
deriving Repr, DecidableEq

/-- Steps 3-5 of `save` (open with write+create, `set_len(0)`,
`write_all`), shared continuation of every branch of step 2. -/
def saveOpenTruncWrite (self : FsPath) (file_contents : String) (w : World) (t : List Ev) :
    Except Error Unit × World × List Ev :=
  match fsOpenWrite w self with
  | (.error e, w1) => (.error (.OpenFileError e), w1, t ++ [.openW self])
  | (.ok _, w1) =>
    match fsSetLen0 w1 self with
    | (.error e, w2) => (.error (.ChangeFileLengthError e), w2, t ++ [.openW self, .truncate self])
    | (.ok _, w2) =>
      match fsWriteAll w2 self file_contents with
      | (.error e, w3) =>
        (.error (.WriteFileError e), w3, t ++ [.openW self, .truncate self, .write self file_contents])
      | (.ok _, w3) =>
        (.ok (), w3, t ++ [.openW self, .truncate self, .write self file_contents])

/-- The blocking facade's slot, `Szafka<T>` of `src/sync.rs`: a path and
a phantom payload type. -/
structure Szafka (T : Type) where
  path : FsPath

namespace Szafka

/-- `Szafka::save` of `src/sync.rs` (lines 41-66): serialize, create the
missing parent chain, open with write+create, truncate, write all. -/
def save {T : Type} (c : Codec T) (self : Szafka T) (data : T) (w : World) :
    Except Error Unit × World × List Ev :=
  match c.encode data with
  | .error e => (.error (.SerdeError e), w, [.serialize])
  | .ok file_contents =>
    match parent self.path with
    | some p =>
      if !(pathExists w p) then
        match fsCreateDirAll w p with
        | (.error e, w1) => (.error (.CreateParentError e), w1, [.serialize, .createDirs p])
        | (.ok _, w1) => saveOpenTruncWrite self.path file_contents w1 [.serialize, .createDirs p]
      else saveOpenTruncWrite self.path file_contents w [.serialize]
    | none => saveOpenTruncWrite self.path file_contents w [.serialize]

/-- `Szafka::get` of `src/sync.rs` (lines 91-100): open read-only, then
deserialize the full content. -/
def get {T : Type} (c : Codec T) (self : Szafka T) (w : World) :
    Except Error T × World × List Ev :=
  match fsOpenRead w self.path with
  | (.error e, w1) => (.error (.OpenFileError e), w1, [.openR self.path])
  | (.ok contents, w1) =>
    match c.decode contents with
    | .error e => (.error (.SerdeError e), w1, [.openR self.path])
    | .ok v => (.ok v, w1, [.openR self.path])

/-- `Szafka::exists` of `src/sync.rs` (lines 124-126): plain
`Path::exists`, no I/O error possible, no world change.  (Named with a
prime because `exists` is reserved in Lean.) -/
def exists' {T : Type} (self : Szafka T) (w : World) : Bool :=
  pathExists w self.path

/-- `Szafka::remove` of `src/sync.rs` (lines 151-158): existence check
first; absent is a successful no-op, present is `remove_file`. -/
def remove {T : Type} (self : Szafka T) (w : World) :
    Except Error Unit × World × List Ev :=
  if pathExists w self.path then
    match fsRemoveFile w self.path with
    | (.error e, w1) => (.error (.RemoveFileError e), w1, [.removeF self.path])
    | (.ok _, w1) => (.ok (), w1, [.removeF self.path])
  else (.ok (), w, [])

end Szafka

/-- The suspension facade's slot, `AsyncSzafka<T>` of `src/async.rs`:
the same path-plus-phantom shape; its operations suspend at each I/O
point but perform the identical steps. -/
structure AsyncSzafka (T : Type) where
  path : FsPath

namespace AsyncSzafka

/-- `AsyncSzafka::save` of `src/async.rs` (lines 43-72): the tokio
transcription of the five-step save. -/
def save {T : Type} (c : Codec T) (self : AsyncSzafka T) (data : T) (w : World) :
    Except Error Unit × World × List Ev :=
  match c.encode data with
  | .error e => (.error (.SerdeError e), w, [.serialize])
  | .ok file_contents =>
    match parent self.path with
    | some p =>
      if !(pathExists w p) then
        match fsCreateDirAll w p with
        | (.error e, w1) => (.error (.CreateParentError e), w1, [.serialize, .createDirs p])
        | (.ok _, w1) => saveOpenTruncWrite self.path file_contents w1 [.serialize, .createDirs p]
      else saveOpenTruncWrite self.path file_contents w [.serialize]
    | none => saveOpenTruncWrite self.path file_contents w [.serialize]

/-- `AsyncSzafka::get` of `src/async.rs` (lines 99-109). -/
def get {T : Type} (c : Codec T) (self : AsyncSzafka T) (w : World) :
    Except Error T × World × List Ev :=
  match fsOpenRead w self.path with
  | (.error e, w1) => (.error (.OpenFileError e), w1, [.openR self.path])
  | (.ok contents, w1) =>
    match c.decode contents with
    | .error e => (.error (.SerdeError e), w1, [.openR self.path])
    | .ok v => (.ok v, w1, [.openR self.path])

/-- `AsyncSzafka::exists` of `src/async.rs` (lines 135-137). -/
def exists' {T : Type} (self : AsyncSzafka T) (w : World) : Bool :=
  pathExists w self.path

/-- `AsyncSzafka::remove` of `src/async.rs` (lines 164-172). -/
def remove {T : Type} (self : AsyncSzafka T) (w : World) :
    Except Error Unit × World × List Ev :=
  if pathExists w self.path then
    match fsRemoveFile w self.path with
    | (.error e, w1) => (.error (.RemoveFileError e), w1, [.removeF self.path])
    | (.ok _, w1) => (.ok (), w1, [.removeF self.path])
  else (.ok (), w, [])

end AsyncSzafka

namespace Lib

/-- The slot `Szafka<T>` of `src/lib.rs`: the tokio-based facade whose
deletion operation is named `flush`. -/
structure Szafka (T : Type) where
  path : FsPath

/-- `Szafka::save` of `src/lib.rs` (lines 62-91). -/
def Szafka.save {T : Type} (c : Codec T) (self : Szafka T) (data : T) (w : World) :
    Except Error Unit × World × List Ev :=
  match c.encode data with
  | .error e => (.error (.SerdeError e), w, [.serialize])
  | .ok file_contents =>
    match parent self.path with
    | some p =>
      if !(pathExists w p) then
        match fsCreateDirAll w p with
        | (.error e, w1) => (.error (.CreateParentError e), w1, [.serialize, .createDirs p])
        | (.ok _, w1) => saveOpenTruncWrite self.path file_contents w1 [.serialize, .createDirs p]
      else saveOpenTruncWrite self.path file_contents w [.serialize]
    | none => saveOpenTruncWrite self.path file_contents w [.serialize]

/-- `Szafka::get` of `src/lib.rs` (lines 118-128). -/
def Szafka.get {T : Type} (c : Codec T) (self : Szafka T) (w : World) :
    Except Error T × World × List Ev :=
  match fsOpenRead w self.path with
  | (.error e, w1) => (.error (.OpenFileError e), w1, [.openR self.path])
  | (.ok contents, w1) =>
    match c.decode contents with
    | .error e => (.error (.SerdeError e), w1, [.openR self.path])
    | .ok v => (.ok v, w1, [.openR self.path])

/-- `Szafka::exists` of `src/lib.rs` (lines 154-156). -/
def Szafka.exists' {T : Type} (self : Szafka T) (w : World) : Bool :=
  pathExists w self.path

/-- `Szafka::flush` of `src/lib.rs` (lines 183-191): the deletion
operation under its `flush` name. -/
def Szafka.flush {T : Type} (self : Szafka T) (w : World) :
    Except Error Unit × World × List Ev :=
  if pathExists w self.path then
    match fsRemoveFile w self.path with
    | (.error e, w1) => (.error (.RemoveFileError e), w1, [.removeF self.path])
    | (.ok _, w1) => (.ok (), w1, [.removeF self.path])
  else (.ok (), w, [])

end Lib

/-- A concrete codec on `Nat` used to instantiate the generic theorems:
encodes `n` as `n + 1` marks (a stand-in for a JSON literal), decodes
only exact such strings. -/
def natCodec : Codec Nat where
  encode n := .ok (String.mk (List.replicate (n + 1) 'x'))
  decode s :=
    match s.data with
    | [] => .error "empty file"
    | d => if d.all (fun ch => ch == 'x') then .ok (d.length - 1) else .error "invalid mark"

/-- A codec whose encode and decode both fail with the same message:
used to exhibit that the taxonomy cannot tell the two apart. -/
def badCodec : Codec Nat where
  encode _ := .error "serde failure"
  decode _ := .error "serde failure"

example :
    (Szafka.save natCodec ⟨["tmp", "x"]⟩ 2 ⟨[["tmp"]], [], []⟩).1 = .ok () := by decide

example :
    (Szafka.save natCodec ⟨["tmp", "x"]⟩ 2 ⟨[["tmp"]], [], []⟩).2.1.files
      = [(["tmp", "x"], "xxx")] := by decide

example :
    (Szafka.get natCodec ⟨["tmp", "x"]⟩
      (Szafka.save natCodec ⟨["tmp", "x"]⟩ 2 ⟨[["tmp"]], [], []⟩).2.1).1 = .ok 2 := by
  decide

section Helpers

variable {T : Type}

@[simp] lemma setFile_dirs (w : World) (p : FsPath) (s : String) :
    (setFile w p s).dirs = w.dirs := rfl

@[simp] lemma setFile_faults (w : World) (p : FsPath) (s : String) :
    (setFile w p s).faults = w.faults := rfl

@[simp] lemma setFile_files (w : World) (p : FsPath) (s : String) :
    (setFile w p s).files = (p, s) :: w.files.filter (fun e => e.1 != p) := rfl

@[simp] lemma dirExists_mk (d : List FsPath) (fl : List (FsPath × String)) (fa : List Bool)
    (p : FsPath) : dirExists ⟨d, fl, fa⟩ p = (p.isEmpty || d.contains p) := rfl

@[simp] lemma fileContent_mk (d : List FsPath) (fl : List (FsPath × String)) (fa : List Bool)
    (p : FsPath) : fileContent ⟨d, fl, fa⟩ p = fl.lookup p := rfl

@[simp] lemma fileExists_mk (d : List FsPath) (fl : List (FsPath × String)) (fa : List Bool)
    (p : FsPath) : fileExists ⟨d, fl, fa⟩ p = (fl.lookup p).isSome := rfl

@[simp] lemma popFault_mk_nil (d : List FsPath) (fl : List (FsPath × String)) :
    popFault ⟨d, fl, []⟩ = (false, ⟨d, fl, []⟩) := rfl

@[simp] lemma popFault_mk_cons (d : List FsPath) (fl : List (FsPath × String)) (b : Bool)
    (r : List Bool) : popFault ⟨d, fl, b :: r⟩ = (b, ⟨d, fl, r⟩) := rfl

lemma popFault_of_nil {w : World} (hf : w.faults = []) : popFault w = (false, w) := by
  obtain ⟨d, fl, fa⟩ := w
  simp only [World.faults] at hf
  subst hf
  rfl

lemma lookup_filter_bne_self (l : List (FsPath × String)) (p : FsPath) :
    (l.filter (fun e => e.1 != p)).lookup p = none := by
  induction l with
  | nil => rfl
  | cons hd tl ih =>
    obtain ⟨k, s⟩ := hd
    by_cases h : k = p
    · subst h
      simpa using ih
    · have hk : (k != p) = true := by simpa using h
      have hpk : (p == k) = false := beq_false_of_ne (Ne.symm h)
      simp [List.filter, hk, List.lookup, hpk, ih]

lemma filter_bne_idem (l : List (FsPath × String)) (p : FsPath) :
    ((l.filter (fun e => e.1 != p)).filter (fun e => e.1 != p))
      = l.filter (fun e => e.1 != p) := by
  rw [List.filter_filter]
  simp

@[simp] lemma fileContent_setFile_self (w : World) (p : FsPath) (s : String) :
    fileContent (setFile w p s) p = some s := by
  simp [fileContent, setFile, List.lookup]

@[simp] lemma fileExists_setFile_self (w : World) (p : FsPath) (s : String) :
    fileExists (setFile w p s) p = true := by
  simp [fileExists]

@[simp] lemma dirExists_setFile (w : World) (p q : FsPath) (s : String) :
    dirExists (setFile w p s) q = dirExists w q := rfl

end Helpers

section PrimitiveLemmas

/-- What a popped fault flag preserves, and that a fault-free world pops
`false` and stays fault-free. -/
lemma popFault_spec {w w0 : World} {f : Bool} (h : popFault w = (f, w0)) :
    w0.dirs = w.dirs ∧ w0.files = w.files ∧ (w.faults = [] → f = false ∧ w0.faults = []) := by
  obtain ⟨d, fl, fa⟩ := w
  rcases fa with _ | ⟨b, r⟩
  · simp only [popFault_mk_nil, Prod.mk.injEq] at h
    obtain ⟨h1, h2⟩ := h
    subst h1
    subst h2
    simp
  · simp only [popFault_mk_cons, Prod.mk.injEq] at h
    obtain ⟨h1, h2⟩ := h
    subst h1
    subst h2
    simp

lemma dirExists_congr {w w0 : World} (p : FsPath) (h : w0.dirs = w.dirs) :
    dirExists w0 p = dirExists w p := by
  simp [dirExists, h]

lemma fileExists_congr {w w0 : World} (p : FsPath) (h : w0.files = w.files) :
    fileExists w0 p = fileExists w p := by
  simp [fileExists, fileContent, h]

/-- Successful `open(write, create)` leaves the directories alone, only
pops fault flags, keeps every other file untouched, and certifies that
no directory sits at the path. -/
lemma fsOpenWrite_ok {w w1 : World} {p : FsPath} {u : Unit}
    (h : fsOpenWrite w p = (.ok u, w1)) :
    dirExists w p = false ∧ w1.dirs = w.dirs ∧
    (w.faults = [] → w1.faults = []) ∧
    w1.files.filter (fun e => e.1 != p) = w.files.filter (fun e => e.1 != p) := by
  rcases hpf : popFault w with ⟨f, w0⟩
  obtain ⟨hd0, hf0, hnil⟩ := popFault_spec hpf
  simp only [fsOpenWrite, hpf] at h
  split at h
  · simp at h
  · split at h
    · simp at h
    · next hdir =>
      split at h
      · simp only [Prod.mk.injEq] at h
        obtain ⟨-, h2⟩ := h
        subst h2
        refine ⟨?_, hd0, fun hw => ((hnil hw).2), by rw [hf0]⟩
        rw [← dirExists_congr p hd0]
        simpa using hdir
      · split at h
        · simp at h
        · next q hq =>
          split at h
          · simp only [Prod.mk.injEq] at h
            obtain ⟨-, h2⟩ := h
            subst h2
            refine ⟨?_, by simpa using hd0, fun hw => ((hnil hw).2), ?_⟩
            · rw [← dirExists_congr p hd0]
              simpa using hdir
            · simp [hf0, filter_bne_idem]
          · simp at h

end PrimitiveLemmas

section PrimitiveLemmas2

/-- Successful truncation replaces the file with an empty one. -/
lemma fsSetLen0_ok {w w2 : World} {p : FsPath} {u : Unit}
    (h : fsSetLen0 w p = (.ok u, w2)) :
    w2.dirs = w.dirs ∧ (w.faults = [] → w2.faults = []) ∧
    w2.files = (p, "") :: w.files.filter (fun e => e.1 != p) := by
  rcases hpf : popFault w with ⟨f, w0⟩
  obtain ⟨hd0, hf0, hnil⟩ := popFault_spec hpf
  simp only [fsSetLen0, hpf] at h
  split at h
  · simp at h
  · simp only [Prod.mk.injEq] at h
    obtain ⟨-, h2⟩ := h
    subst h2
    exact ⟨by simpa using hd0, fun hw => (hnil hw).2, by simp [hf0]⟩

/-- Successful full write replaces the file content with exactly the
written string. -/
lemma fsWriteAll_ok {w w3 : World} {p : FsPath} {s : String} {u : Unit}
    (h : fsWriteAll w p s = (.ok u, w3)) :
    w3.dirs = w.dirs ∧ (w.faults = [] → w3.faults = []) ∧
    w3.files = (p, s) :: w.files.filter (fun e => e.1 != p) := by
  rcases hpf : popFault w with ⟨f, w0⟩
  obtain ⟨hd0, hf0, hnil⟩ := popFault_spec hpf
  simp only [fsWriteAll, hpf] at h
  split at h
  · simp at h
  · simp only [Prod.mk.injEq] at h
    obtain ⟨-, h2⟩ := h
    subst h2
    exact ⟨by simpa using hd0, fun hw => (hnil hw).2, by simp [hf0]⟩

/-- Successful directory bootstrap: the files are untouched, and the new
directory set is the requested chain on top of the old one. -/
lemma fsCreateDirAll_ok {w w1 : World} {p : FsPath} {u : Unit}
    (h : fsCreateDirAll w p = (.ok u, w1)) :
    w1.files = w.files ∧ (w.faults = [] → w1.faults = []) ∧
    w1.dirs = ancestors p ++ w.dirs := by
  rcases hpf : popFault w with ⟨f, w0⟩
  obtain ⟨hd0, hf0, hnil⟩ := popFault_spec hpf
  simp only [fsCreateDirAll, hpf] at h
  split at h
  · simp at h
  · split at h
    · simp at h
    · simp only [Prod.mk.injEq] at h
      obtain ⟨-, h2⟩ := h
      subst h2
      exact ⟨hf0, fun hw => (hnil hw).2, by simp [hd0]⟩

/-- Successful deletion: the file entry is gone, directories untouched. -/
lemma fsRemoveFile_ok {w w1 : World} {p : FsPath} {u : Unit}
    (h : fsRemoveFile w p = (.ok u, w1)) :
    w1.dirs = w.dirs ∧ (w.faults = [] → w1.faults = []) ∧
    w1.files = w.files.filter (fun e => e.1 != p) := by
  rcases hpf : popFault w with ⟨f, w0⟩
  obtain ⟨hd0, hf0, hnil⟩ := popFault_spec hpf
  simp only [fsRemoveFile, hpf] at h
  split at h
  · simp at h
  · split at h
    · simp only [Prod.mk.injEq] at h
      obtain ⟨-, h2⟩ := h
      subst h2
      exact ⟨by simpa using hd0, fun hw => (hnil hw).2, by simp [removeFileEntry, hf0]⟩
    · split at h <;> simp at h

end PrimitiveLemmas2

section SaveShape

/-- Success shape of steps 3-5: on success the file holds exactly the
written content on top of the otherwise-filtered old files, the
directories are untouched, no directory sat at the path, and the trace
appends open-truncate-write in order. -/
lemma saveOTW_ok {p : FsPath} {s : String} {w : World} {t : List Ev}
    (hok : (saveOpenTruncWrite p s w t).1 = .ok ()) :
    dirExists w p = false ∧
    (saveOpenTruncWrite p s w t).2.1.dirs = w.dirs ∧
    (w.faults = [] → (saveOpenTruncWrite p s w t).2.1.faults = []) ∧
    (saveOpenTruncWrite p s w t).2.1.files
      = (p, s) :: w.files.filter (fun e => e.1 != p) ∧
    (saveOpenTruncWrite p s w t).2.2 = t ++ [.openW p, .truncate p, .write p s] := by
  rcases h1 : fsOpenWrite w p with ⟨r1, w1⟩
  rcases r1 with e1 | u1
  · simp [saveOpenTruncWrite, h1] at hok
  · rcases h2 : fsSetLen0 w1 p with ⟨r2, w2⟩
    rcases r2 with e2 | u2
    · simp [saveOpenTruncWrite, h1, h2] at hok
    · rcases h3 : fsWriteAll w2 p s with ⟨r3, w3⟩
      rcases r3 with e3 | u3
      · simp [saveOpenTruncWrite, h1, h2, h3] at hok
      · obtain ⟨hdir, hd1, hn1, hfl1⟩ := fsOpenWrite_ok h1
        obtain ⟨hd2, hn2, hfl2⟩ := fsSetLen0_ok h2
        obtain ⟨hd3, hn3, hfl3⟩ := fsWriteAll_ok h3
        have hres : saveOpenTruncWrite p s w t
            = (.ok (), w3, t ++ [.openW p, .truncate p, .write p s]) := by
          simp [saveOpenTruncWrite, h1, h2, h3]
        refine ⟨hdir, ?_, ?_, ?_, ?_⟩
        · rw [hres]
          simpa [hd3, hd2] using hd1
        · intro hw
          rw [hres]
          exact hn3 (hn2 (hn1 hw))
        · rw [hres]
          simp only
          rw [hfl3, hfl2]
          simp [filter_bne_idem, hfl1]
        · rw [hres]
end SaveShape

section SaveMaster

/-- Master success lemma for the five-step `save`: a successful save
encoded the value to some string, rewrote the file to exactly that
string (old content filtered away), left no directory at the slot path,
preserved fault-freeness, and produced the serialize - (create) - open -
truncate - write trace in order, creating directories only when the
parent was absent. -/
lemma save_ok_shape {T : Type} {c : Codec T} {s : Szafka T} {v : T} {w : World}
    (hok : (Szafka.save c s v w).1 = .ok ()) :
    ∃ str, c.encode v = .ok str ∧
      (Szafka.save c s v w).2.1.files
        = (s.path, str) :: w.files.filter (fun e => e.1 != s.path) ∧
      dirExists (Szafka.save c s v w).2.1 s.path = false ∧
      (w.faults = [] → (Szafka.save c s v w).2.1.faults = []) ∧
      ∃ pre, (pre = [] ∨ ∃ q, parent s.path = some q ∧ pathExists w q = false
                ∧ pre = [Ev.createDirs q]) ∧
        (Szafka.save c s v w).2.2
          = [Ev.serialize] ++ pre ++ [Ev.openW s.path, Ev.truncate s.path, Ev.write s.path str] := by
  rcases henc : c.encode v with e | str
  · simp [Szafka.save, henc] at hok
  · refine ⟨str, rfl, ?_⟩
    rcases hpar : parent s.path with _ | q
    · have hsave : Szafka.save c s v w = saveOpenTruncWrite s.path str w [.serialize] := by
        simp [Szafka.save, henc, hpar]
      rw [hsave] at hok ⊢
      obtain ⟨hdir, hd, hn, hfl, htr⟩ := saveOTW_ok hok
      refine ⟨hfl, ?_, hn, [], Or.inl rfl, by simpa using htr⟩
      rw [dirExists_congr s.path hd]
      exact hdir
    · by_cases hpq : pathExists w q
      · have hsave : Szafka.save c s v w = saveOpenTruncWrite s.path str w [.serialize] := by
          simp [Szafka.save, henc, hpar, hpq]
        rw [hsave] at hok ⊢
        obtain ⟨hdir, hd, hn, hfl, htr⟩ := saveOTW_ok hok
        refine ⟨hfl, ?_, hn, [], Or.inl rfl, by simpa using htr⟩
        rw [dirExists_congr s.path hd]
        exact hdir
      · rcases hcd : fsCreateDirAll w q with ⟨rc, wc⟩
        rcases rc with ec | uc
        · have : Szafka.save c s v w
              = (.error (.CreateParentError ec), wc, [.serialize, .createDirs q]) := by
            simp [Szafka.save, henc, hpar, hpq, hcd]
          rw [this] at hok
          simp at hok
        · have hsave : Szafka.save c s v w
              = saveOpenTruncWrite s.path str wc [.serialize, .createDirs q] := by
            simp [Szafka.save, henc, hpar, hpq, hcd]
          obtain ⟨hcf, hcn, hcdirs⟩ := fsCreateDirAll_ok hcd
          rw [hsave] at hok ⊢
          obtain ⟨hdir, hd, hn, hfl, htr⟩ := saveOTW_ok hok
          refine ⟨by rw [hfl, hcf], ?_, fun hw => hn (hcn hw), [Ev.createDirs q],
            Or.inr ⟨q, rfl, by simpa using hpq, rfl⟩, by simpa using htr⟩
          rw [dirExists_congr s.path hd]
          exact hdir

end SaveMaster

section GetLemmas

/-- Fault-free `get` on a present file is exactly open-then-decode. -/
lemma get_eq {T : Type} (c : Codec T) (s : Szafka T) (w : World) (str : String)
    (hf : w.faults = []) (hd : dirExists w s.path = false)
    (hc : fileContent w s.path = some str) :
    Szafka.get c s w = ((c.decode str).mapError Error.SerdeError, w, [.openR s.path]) := by
  have hopen : fsOpenRead w s.path = (.ok str, w) := by
    simp [fsOpenRead, popFault_of_nil hf, hd, hc]
  rcases hdec : c.decode str with e | v <;>
    simp [Szafka.get, hopen, hdec, Except.mapError]

/-- Fault-free `get` on an absent file is an open failure: not found. -/
lemma get_notFound {T : Type} (c : Codec T) (s : Szafka T) (w : World)
    (hf : w.faults = []) (hd : dirExists w s.path = false)
    (hc : fileContent w s.path = none) :
    Szafka.get c s w = (.error (.OpenFileError .notFound), w, [.openR s.path]) := by
  have hopen : fsOpenRead w s.path = (.error .notFound, w) := by
    simp [fsOpenRead, popFault_of_nil hf, hd, hc]
  simp [Szafka.get, hopen]

end GetLemmas

section RemoveLemmas

lemma popFault_of_cons {w : World} {b : Bool} {r : List Bool} (hf : w.faults = b :: r) :
    popFault w = (b, { w with faults := r }) := by
  obtain ⟨d, fl, fa⟩ := w
  simp only [World.faults] at hf
  subst hf
  rfl

/-- `remove` on an absent path is a successful no-op: the world is
untouched (no fault flag is even consumed) and no event happens. -/
lemma remove_absent {T : Type} (s : Szafka T) (w : World)
    (h : pathExists w s.path = false) :
    Szafka.remove s w = (.ok (), w, []) := by
  simp [Szafka.remove, h]

/-- Fault-free `remove` succeeds whenever no directory sits at the
path. -/
lemma remove_nofault_ok {T : Type} (s : Szafka T) (w : World) (hf : w.faults = [])
    (hd : dirExists w s.path = false) : (Szafka.remove s w).1 = .ok () := by
  cases hp : pathExists w s.path
  · simp [Szafka.remove, hp]
  · have hfe : fileExists w s.path = true := by
      simpa [pathExists, hd] using hp
    have hrm : fsRemoveFile w s.path = (.ok (), removeFileEntry w s.path) := by
      simp [fsRemoveFile, popFault_of_nil hf, hfe]
    simp [Szafka.remove, hp, hrm]

/-- Successful `remove` leaves no file at the path, keeps directories,
and preserves fault-freeness. -/
lemma remove_ok_shape {T : Type} {s : Szafka T} {w : World}
    (hok : (Szafka.remove s w).1 = .ok ()) :
    (Szafka.remove s w).2.1.dirs = w.dirs ∧
    fileContent (Szafka.remove s w).2.1 s.path = none ∧
    (w.faults = [] → (Szafka.remove s w).2.1.faults = []) := by
  cases hp : pathExists w s.path
  · have hfe : fileExists w s.path = false := by
      have := hp
      simp [pathExists] at this
      exact this.1
    have hrw : Szafka.remove s w = (.ok (), w, []) := by
      simp [Szafka.remove, hp]
    rw [hrw]
    refine ⟨rfl, ?_, fun h => h⟩
    rcases hco : fileContent w s.path with _ | str
    · rfl
    · simp [fileExists, hco] at hfe
  · rcases hr : fsRemoveFile w s.path with ⟨rr, w1⟩
    rcases rr with e | u
    · simp [Szafka.remove, hp, hr] at hok
    · obtain ⟨hd, hn, hfl⟩ := fsRemoveFile_ok hr
      have hrw : Szafka.remove s w = (.ok (), w1, [.removeF s.path]) := by
        simp [Szafka.remove, hp, hr]
      rw [hrw]
      exact ⟨hd, by simp [fileContent, hfl, lookup_filter_bne_self], hn⟩

/-- A `RemoveFileError` can only arise out of the present-file branch. -/
lemma remove_err_present {T : Type} {s : Szafka T} {w : World} {e : IOErr}
    (h : (Szafka.remove s w).1 = .error (.RemoveFileError e)) :
    pathExists w s.path = true := by
  cases hp : pathExists w s.path
  · rw [remove_absent s w hp] at h
    simp at h
  · rfl

end RemoveLemmas

/-- C2: the blocking facade (`src/sync.rs`) and the suspension facades
(`src/async.rs`, `src/lib.rs`) are behaviorally identical for every
operation: for every slot path, value, and filesystem world they return
the same results (hence the same success conditions and error kinds),
produce the same final world (same side effects), and the same event
trace (same ordering of internal steps); in particular `remove` and
`flush` denote the identical operation. -/
theorem C2_facades_equivalent {T : Type} (c : Codec T) (p : FsPath) (v : T) (w : World) :
    AsyncSzafka.save c ⟨p⟩ v w = Szafka.save c ⟨p⟩ v w
    ∧ AsyncSzafka.get c ⟨p⟩ w = Szafka.get c ⟨p⟩ w
    ∧ AsyncSzafka.exists' (⟨p⟩ : AsyncSzafka T) w = Szafka.exists' (⟨p⟩ : Szafka T) w
    ∧ AsyncSzafka.remove (⟨p⟩ : AsyncSzafka T) w = Szafka.remove (⟨p⟩ : Szafka T) w
    ∧ Lib.Szafka.save c ⟨p⟩ v w = Szafka.save c ⟨p⟩ v w
    ∧ Lib.Szafka.get c ⟨p⟩ w = Szafka.get c ⟨p⟩ w
    ∧ Lib.Szafka.exists' (⟨p⟩ : Lib.Szafka T) w = Szafka.exists' (⟨p⟩ : Szafka T) w
    ∧ Lib.Szafka.flush (⟨p⟩ : Lib.Szafka T) w = Szafka.remove (⟨p⟩ : Szafka T) w
    ∧ Lib.Szafka.flush (⟨p⟩ : Lib.Szafka T) w = AsyncSzafka.remove (⟨p⟩ : AsyncSzafka T) w :=
  ⟨rfl, rfl, rfl, rfl, rfl, rfl, rfl, rfl, rfl⟩

/-- C10: serialization happens before any filesystem action, so a save
whose serialization fails returns the serde error and leaves the world
entirely unchanged (no fault flag consumed, no directory created, no
file opened, truncated or written) with no filesystem event in the
trace — in all three facades. -/
theorem C10_serialize_failure_atomic {T : Type} (c : Codec T) (p : FsPath) (v : T)
    (w : World) (e : String) (henc : c.encode v = .error e) :
    Szafka.save c ⟨p⟩ v w = (.error (.SerdeError e), w, [.serialize])
    ∧ AsyncSzafka.save c ⟨p⟩ v w = (.error (.SerdeError e), w, [.serialize])
    ∧ Lib.Szafka.save c ⟨p⟩ v w = (.error (.SerdeError e), w, [.serialize]) := by
  refine ⟨?_, ?_, ?_⟩ <;>
    simp [Szafka.save, AsyncSzafka.save, Lib.Szafka.save, henc]

theorem C10_witness :
    Szafka.save badCodec ⟨["tmp", "x"]⟩ 0 ⟨[["tmp"]], [], []⟩
      = (.error (.SerdeError "serde failure"), ⟨[["tmp"]], [], []⟩, [.serialize]) :=
  (C10_serialize_failure_atomic badCodec ["tmp", "x"] 0 ⟨[["tmp"]], [], []⟩
    "serde failure" rfl).1

/-- C4: `remove`/`flush` on an absent path succeeds with no side effect;
fault-free and with no directory in the way, two consecutive calls both
succeed whatever the initial state; and a `RemoveFileError` can only be
reported when something was present at the path. -/
theorem C4_remove_idempotent {T : Type} (s : Szafka T) (w : World) :
    (pathExists w s.path = false →
      Szafka.remove s w = (.ok (), w, [])
      ∧ Lib.Szafka.flush (⟨s.path⟩ : Lib.Szafka T) w = (.ok (), w, []))
    ∧ (w.faults = [] → dirExists w s.path = false →
      (Szafka.remove s w).1 = .ok ()
      ∧ (Szafka.remove s (Szafka.remove s w).2.1).1 = .ok ()
      ∧ (Lib.Szafka.flush (⟨s.path⟩ : Lib.Szafka T) w).1 = .ok ()
      ∧ (Lib.Szafka.flush (⟨s.path⟩ : Lib.Szafka T)
          (Lib.Szafka.flush (⟨s.path⟩ : Lib.Szafka T) w).2.1).1 = .ok ())
    ∧ (∀ e, (Szafka.remove s w).1 = .error (.RemoveFileError e) →
        pathExists w s.path = true)
    ∧ (∀ e, (Lib.Szafka.flush (⟨s.path⟩ : Lib.Szafka T) w).1 = .error (.RemoveFileError e) →
        pathExists w s.path = true) := by
  have habs : pathExists w s.path = false → Szafka.remove s w = (.ok (), w, []) :=
    fun h => remove_absent s w h
  have htwice : w.faults = [] → dirExists w s.path = false →
      (Szafka.remove s w).1 = .ok ()
      ∧ (Szafka.remove s (Szafka.remove s w).2.1).1 = .ok () := by
    intro hf hd
    have h1 : (Szafka.remove s w).1 = .ok () := remove_nofault_ok s w hf hd
    obtain ⟨hdirs, hcont, hfau⟩ := remove_ok_shape h1
    have hd2 : dirExists (Szafka.remove s w).2.1 s.path = false := by
      rw [dirExists_congr s.path hdirs]
      exact hd
    exact ⟨h1, remove_nofault_ok s _ (hfau hf) hd2⟩
  refine ⟨fun h => ⟨habs h, habs h⟩, fun hf hd => ?_,
    fun e h => remove_err_present h, fun e h => remove_err_present (s := s) (w := w) h⟩
  obtain ⟨h1, h2⟩ := htwice hf hd
  exact ⟨h1, h2, h1, h2⟩

theorem C4_witness :
    (Szafka.remove (⟨["tmp", "x"]⟩ : Szafka Nat) ⟨[["tmp"]], [], []⟩
      = (.ok (), ⟨[["tmp"]], [], []⟩, []))
    ∧ ((Szafka.remove (⟨["tmp", "x"]⟩ : Szafka Nat)
          ⟨[["tmp"]], [(["tmp", "x"], "xxx")], []⟩).1 = .ok ()
      ∧ (Szafka.remove (⟨["tmp", "x"]⟩ : Szafka Nat)
          (Szafka.remove (⟨["tmp", "x"]⟩ : Szafka Nat)
            ⟨[["tmp"]], [(["tmp", "x"], "xxx")], []⟩).2.1).1 = .ok ())
    ∧ pathExists ⟨[["tmp"]], [(["tmp", "x"], "xxx")], [true]⟩ ["tmp", "x"] = true := by
  refine ⟨?_, ?_, ?_⟩
  · exact ((C4_remove_idempotent (⟨["tmp", "x"]⟩ : Szafka Nat)
      ⟨[["tmp"]], [], []⟩).1 (by decide)).1
  · have h := (C4_remove_idempotent (⟨["tmp", "x"]⟩ : Szafka Nat)
      ⟨[["tmp"]], [(["tmp", "x"], "xxx")], []⟩).2.1 rfl (by decide)
    exact ⟨h.1, h.2.1⟩
  · exact (C4_remove_idempotent (⟨["tmp", "x"]⟩ : Szafka Nat)
      ⟨[["tmp"]], [(["tmp", "x"], "xxx")], [true]⟩).2.2.1 .other (by decide)

/-- C5: `exists()` is false when nothing is at the path (before any
save), true immediately after a successful save, and false immediately
after a successful remove (no directory having sat at the path). -/
theorem C5_exists_transitions {T : Type} (c : Codec T) (s : Szafka T) (v : T) (w : World) :
    (fileExists w s.path = false → dirExists w s.path = false →
      Szafka.exists' s w = false)
    ∧ ((Szafka.save c s v w).1 = .ok () →
        Szafka.exists' s (Szafka.save c s v w).2.1 = true)
    ∧ ((Szafka.remove s w).1 = .ok () → dirExists w s.path = false →
        Szafka.exists' s (Szafka.remove s w).2.1 = false) := by
  refine ⟨fun hfe hd => by simp [Szafka.exists', pathExists, hfe, hd], ?_, ?_⟩
  · intro hok
    obtain ⟨str, henc, hfiles, hdir, hfau, -⟩ := save_ok_shape hok
    have hfe : fileExists (Szafka.save c s v w).2.1 s.path = true := by
      simp [fileExists, fileContent, hfiles, List.lookup]
    simp [Szafka.exists', pathExists, hfe]
  · intro hok hd
    obtain ⟨hdirs, hcont, -⟩ := remove_ok_shape hok
    have h1 : fileExists (Szafka.remove s w).2.1 s.path = false := by
      simp [fileExists, hcont]
    have h2 : dirExists (Szafka.remove s w).2.1 s.path = false := by
      rw [dirExists_congr s.path hdirs]
      exact hd
    simp [Szafka.exists', pathExists, h1, h2]

theorem C5_witness :
    Szafka.exists' (⟨["tmp", "x"]⟩ : Szafka Nat) ⟨[["tmp"]], [], []⟩ = false
    ∧ Szafka.exists' (⟨["tmp", "x"]⟩ : Szafka Nat)
        (Szafka.save natCodec ⟨["tmp", "x"]⟩ 2 ⟨[["tmp"]], [], []⟩).2.1 = true
    ∧ Szafka.exists' (⟨["tmp", "x"]⟩ : Szafka Nat)
        (Szafka.remove (⟨["tmp", "x"]⟩ : Szafka Nat)
          ⟨[["tmp"]], [(["tmp", "x"], "xxx")], []⟩).2.1 = false := by
  refine ⟨?_, ?_, ?_⟩
  · exact (C5_exists_transitions natCodec _ 0 _).1 (by decide) (by decide)
  · exact (C5_exists_transitions natCodec _ 2 _).2.1 (by decide)
  · exact (C5_exists_transitions natCodec _ 0 _).2.2 (by decide) (by decide)

/-- C6: fault-free `get` on a path with no file fails with the
not-found open error, while `get` on a present file whose content does
not decode fails with the serde error; the two kinds are distinct. -/
theorem C6_get_error_kinds {T : Type} (c : Codec T) (s : Szafka T) (w : World) :
    (w.faults = [] → dirExists w s.path = false → fileContent w s.path = none →
      (Szafka.get c s w).1 = .error (.OpenFileError .notFound))
    ∧ (∀ str e, w.faults = [] → dirExists w s.path = false →
        fileContent w s.path = some str → c.decode str = .error e →
        (Szafka.get c s w).1 = .error (.SerdeError e))
    ∧ (∀ e1 e2, Error.OpenFileError e1 ≠ Error.SerdeError e2) := by
  refine ⟨fun hf hd hc => by rw [get_notFound c s w hf hd hc],
    fun str e hf hd hc hdec => ?_, fun e1 e2 => by simp⟩
  rw [get_eq c s w str hf hd hc]
  simp [hdec, Except.mapError]

theorem C6_witness :
    (Szafka.get natCodec (⟨["tmp", "x"]⟩ : Szafka Nat) ⟨[["tmp"]], [], []⟩).1
      = .error (.OpenFileError .notFound)
    ∧ (Szafka.get natCodec (⟨["tmp", "x"]⟩ : Szafka Nat)
        ⟨[["tmp"]], [(["tmp", "x"], "zz")], []⟩).1 = .error (.SerdeError "invalid mark")
    ∧ Error.OpenFileError .notFound ≠ Error.SerdeError "invalid mark" := by
  refine ⟨?_, ?_, ?_⟩
  · exact (C6_get_error_kinds natCodec _ _).1 rfl (by decide) (by decide)
  · exact (C6_get_error_kinds natCodec _ _).2.1 "zz" "invalid mark" rfl (by decide)
      (by decide) (by decide)
  · exact (C6_get_error_kinds natCodec (⟨["tmp", "x"]⟩ : Szafka Nat)
      ⟨[["tmp"]], [], []⟩).2.2 .notFound "invalid mark"

/-- C1: in a fault-free world, with a codec that round-trips the value
(serde_json's guarantee for a fixed schema), a successful `save v`
followed immediately by `get` succeeds and returns `v` — in the
blocking facade and in the suspension facade alike. -/
theorem C1_save_get_round_trip {T : Type} (c : Codec T) (p : FsPath) (v : T) (w : World)
    (hrt : ∀ str, c.encode v = .ok str → c.decode str = .ok v)
    (hf : w.faults = []) :
    ((Szafka.save c ⟨p⟩ v w).1 = .ok () →
      (Szafka.get c ⟨p⟩ (Szafka.save c ⟨p⟩ v w).2.1).1 = .ok v)
    ∧ ((AsyncSzafka.save c ⟨p⟩ v w).1 = .ok () →
      (AsyncSzafka.get c ⟨p⟩ (AsyncSzafka.save c ⟨p⟩ v w).2.1).1 = .ok v) := by
  have main : (Szafka.save c ⟨p⟩ v w).1 = .ok () →
      (Szafka.get c ⟨p⟩ (Szafka.save c ⟨p⟩ v w).2.1).1 = .ok v := by
    intro hok
    obtain ⟨str, henc, hfiles, hdir, hfau, -⟩ := save_ok_shape hok
    have hcontent :
        fileContent (Szafka.save c ⟨p⟩ v w).2.1 (⟨p⟩ : Szafka T).path = some str := by
      simp [fileContent, hfiles, List.lookup]
    rw [get_eq c ⟨p⟩ _ str (hfau hf) hdir hcontent]
    simp [hrt str henc, Except.mapError]
  exact ⟨main, main⟩

theorem C1_witness :
    (Szafka.get natCodec (⟨["tmp", "x"]⟩ : Szafka Nat)
      (Szafka.save natCodec ⟨["tmp", "x"]⟩ 2 ⟨[["tmp"]], [], []⟩).2.1).1 = .ok 2 := by
  have hrt : ∀ str, natCodec.encode 2 = .ok str → natCodec.decode str = .ok 2 := by
    intro str h
    rw [show natCodec.encode 2 = Except.ok "xxx" by decide] at h
    injection h with h2
    subst h2
    decide
  exact (C1_save_get_round_trip natCodec ["tmp", "x"] 2 ⟨[["tmp"]], [], []⟩ hrt rfl).1
    (by decide)

/-- C3 counterexample: the taxonomy has no separate serialize and
deserialize kinds — with a codec whose encode and decode both fail, a
failing `save` and a failing `get` on corrupt content return the very
same error value `SerdeError "serde failure"`, so the caller cannot
distinguish the two situations by error kind, contrary to the claim. -/
theorem C3_counterexample :
    (Szafka.save badCodec ⟨["tmp", "x"]⟩ 0
      ⟨[["tmp"]], [(["tmp", "x"], "junk")], []⟩).1 = .error (.SerdeError "serde failure")
    ∧ (Szafka.get badCodec ⟨["tmp", "x"]⟩
      ⟨[["tmp"]], [(["tmp", "x"], "junk")], []⟩).1 = .error (.SerdeError "serde failure") :=
  ⟨by decide, by decide⟩

/-- C3 amended: both serialization failure in `save` and deserialization
failure in `get` are surfaced under the single `SerdeError` kind, which
is distinct from every I/O error kind — but the two are not separate
kinds distinguishable from each other. -/
theorem C3_amended_serde_single_kind {T : Type} (c : Codec T) (s : Szafka T) (v : T)
    (w : World) :
    (∀ e, c.encode v = .error e → (Szafka.save c s v w).1 = .error (.SerdeError e))
    ∧ (∀ str e, w.faults = [] → dirExists w s.path = false →
        fileContent w s.path = some str → c.decode str = .error e →
        (Szafka.get c s w).1 = .error (.SerdeError e))
    ∧ (∀ e e2, Error.SerdeError e ≠ Error.OpenFileError e2
        ∧ Error.SerdeError e ≠ Error.CreateParentError e2
        ∧ Error.SerdeError e ≠ Error.WriteFileError e2
        ∧ Error.SerdeError e ≠ Error.RemoveFileError e2
        ∧ Error.SerdeError e ≠ Error.ChangeFileLengthError e2) := by
  refine ⟨fun e henc => by simp [Szafka.save, henc], fun str e hf hd hc hdec => ?_,
    fun e e2 => by simp⟩
  rw [get_eq c s w str hf hd hc]
  simp [hdec, Except.mapError]

theorem C3_amended_witness :
    (Szafka.save badCodec ⟨["a"]⟩ 1 ⟨[], [], []⟩).1 = .error (.SerdeError "serde failure")
    ∧ (Szafka.get natCodec (⟨["tmp", "x"]⟩ : Szafka Nat)
        ⟨[["tmp"]], [(["tmp", "x"], "yy")], []⟩).1 = .error (.SerdeError "invalid mark") := by
  constructor
  · exact (C3_amended_serde_single_kind badCodec ⟨["a"]⟩ 1 ⟨[], [], []⟩).1
      "serde failure" rfl
  · exact (C3_amended_serde_single_kind natCodec _ 0 _).2.1 "yy" "invalid mark" rfl
      (by decide) (by decide) (by decide)

/-- C9: a successful `save v` leaves the file holding exactly the
serialization of `v` with no residue of the prior content (whatever it
was), and performs a full write of that content; hence two successful
saves of the same value from any two prior worlds converge to the same
file content. -/
theorem C9_full_rewrite {T : Type} (c : Codec T) (s : Szafka T) (v : T) (w w2 : World) :
    ((Szafka.save c s v w).1 = .ok () → ∃ str, c.encode v = .ok str
      ∧ (Szafka.save c s v w).2.1.files
          = (s.path, str) :: w.files.filter (fun e => e.1 != s.path)
      ∧ fileContent (Szafka.save c s v w).2.1 s.path = some str
      ∧ Ev.write s.path str ∈ (Szafka.save c s v w).2.2)
    ∧ ((Szafka.save c s v w).1 = .ok () → (Szafka.save c s v w2).1 = .ok () →
        fileContent (Szafka.save c s v w).2.1 s.path
          = fileContent (Szafka.save c s v w2).2.1 s.path) := by
  constructor
  · intro hok
    obtain ⟨str, henc, hfiles, hdir, hfau, pre, hpre, htr⟩ := save_ok_shape hok
    refine ⟨str, henc, hfiles, by simp [fileContent, hfiles, List.lookup], ?_⟩
    rw [htr]
    simp
  · intro h1 h2
    obtain ⟨str1, henc1, hfiles1, -, -, -⟩ := save_ok_shape h1
    obtain ⟨str2, henc2, hfiles2, -, -, -⟩ := save_ok_shape h2
    have heq : str1 = str2 := by
      have h12 := henc1.symm.trans henc2
      injection h12
    subst heq
    simp [fileContent, hfiles1, hfiles2, List.lookup]

theorem C9_witness :
    fileContent (Szafka.save natCodec (⟨["tmp", "x"]⟩ : Szafka Nat) 2
        ⟨[["tmp"]], [], []⟩).2.1 ["tmp", "x"]
      = fileContent (Szafka.save natCodec (⟨["tmp", "x"]⟩ : Szafka Nat) 2
        ⟨[["tmp"]], [(["tmp", "x"], "old content")], []⟩).2.1 ["tmp", "x"] :=
  (C9_full_rewrite natCodec (⟨["tmp", "x"]⟩ : Szafka Nat) 2
    ⟨[["tmp"]], [], []⟩ ⟨[["tmp"]], [(["tmp", "x"], "old content")], []⟩).2
    (by decide) (by decide)

section AncestorLemmas

lemma length_le_of_mem_ancestors {r q : FsPath} (h : r ∈ ancestors q) :
    r.length ≤ q.length := by
  simp only [ancestors, List.mem_map, List.mem_range] at h
  obtain ⟨i, hi, rfl⟩ := h
  simp [List.length_take]

lemma self_mem_ancestors {q : FsPath} (hq : q ≠ []) : q ∈ ancestors q := by
  have hlen : 0 < q.length := List.length_pos.mpr hq
  simp only [ancestors, List.mem_map, List.mem_range]
  refine ⟨q.length - 1, by omega, ?_⟩
  have heq : q.length - 1 + 1 = q.length := by omega
  rw [heq, List.take_length]

/-- Fault-free steps 3-5 succeed whenever no directory sits at the path
and either the file already exists or the parent directory does. -/
lemma saveOTW_nofault_ok {p : FsPath} {s : String} {w : World} {t : List Ev}
    (hf : w.faults = []) (hd : dirExists w p = false)
    (hop : fileExists w p = true ∨ ∃ q, parent p = some q ∧ dirExists w q = true) :
    (saveOpenTruncWrite p s w t).1 = .ok ()
    ∧ (saveOpenTruncWrite p s w t).2.1.dirs = w.dirs
    ∧ (saveOpenTruncWrite p s w t).2.2 = t ++ [.openW p, .truncate p, .write p s] := by
  have hopen : ∃ w1 : World, fsOpenWrite w p = (.ok (), w1)
      ∧ w1.dirs = w.dirs ∧ w1.faults = [] := by
    rcases hop with hfe | ⟨q, hq, hdq⟩
    · exact ⟨w, by simp [fsOpenWrite, popFault_of_nil hf, hd, hfe], rfl, hf⟩
    · cases hfe2 : fileExists w p
      · refine ⟨setFile w p "", ?_, by simp, by simp [hf]⟩
        simp [fsOpenWrite, popFault_of_nil hf, hd, hfe2, hq, hdq]
      · exact ⟨w, by simp [fsOpenWrite, popFault_of_nil hf, hd, hfe2], rfl, hf⟩
  obtain ⟨w1, hw1, hd1, hf1⟩ := hopen
  have h2 : fsSetLen0 w1 p = (.ok (), setFile w1 p "") := by
    simp [fsSetLen0, popFault_of_nil hf1]
  have hf2 : (setFile w1 p "").faults = [] := by simp [hf1]
  have h3 : fsWriteAll (setFile w1 p "") p s = (.ok (), setFile (setFile w1 p "") p s) := by
    simp [fsWriteAll, popFault_of_nil hf2]
  simp [saveOpenTruncWrite, hw1, h2, h3, hd1]

end AncestorLemmas

/-- C7: fault-free, when the slot's parent directory is absent (and
nothing is in the way: no file occupies the required directory chain, no
directory sits at the slot path itself, and the value serializes), save
succeeds, creates the parent directory and every missing ancestor, and
does so before opening the file, as the event trace shows. -/
theorem C7_save_creates_parents {T : Type} (c : Codec T) (p : FsPath) (v : T) (w : World)
    (q : FsPath) (str : String)
    (hf : w.faults = [])
    (henc : c.encode v = .ok str)
    (hq : parent p = some q)
    (hqmiss : pathExists w q = false)
    (hclean : ∀ r ∈ ancestors q, fileExists w r = false)
    (hself : dirExists w p = false) :
    (Szafka.save c ⟨p⟩ v w).1 = .ok ()
    ∧ (∀ r ∈ ancestors q, dirExists (Szafka.save c ⟨p⟩ v w).2.1 r = true)
    ∧ (Szafka.save c ⟨p⟩ v w).2.2
        = [.serialize, .createDirs q, .openW p, .truncate p, .write p str] := by
  have hdq : dirExists w q = false := by
    have h := hqmiss
    simp [pathExists] at h
    exact h.2
  have hqne : q ≠ [] := by
    intro h
    subst h
    simp [dirExists] at hdq
  have hpne : p ≠ [] := by
    intro h
    subst h
    simp [parent] at hq
  have hqdl : q = p.dropLast := by
    simp [parent, hpne] at hq
    exact hq.symm
  have hanyfalse : (ancestors q).any (fun r => fileExists w r) = false := by
    simp only [List.any_eq_false]
    intro r hr
    simp [hclean r hr]
  have hcd : fsCreateDirAll w q
      = (.ok (), { w with dirs := ancestors q ++ w.dirs }) := by
    simp [fsCreateDirAll, popFault_of_nil hf, hanyfalse]
  have hsave : Szafka.save c ⟨p⟩ v w
      = saveOpenTruncWrite p str { w with dirs := ancestors q ++ w.dirs }
          [.serialize, .createDirs q] := by
    simp [Szafka.save, henc, hq, hqmiss, hcd]
  have hwcf : ({ w with dirs := ancestors q ++ w.dirs } : World).faults = [] := hf
  have hpnotanc : p ∉ ancestors q := by
    intro hmem
    have h1 := length_le_of_mem_ancestors hmem
    have h2 : q.length = p.length - 1 := by
      rw [hqdl, List.length_dropLast]
    have h3 : 0 < p.length := List.length_pos.mpr hpne
    omega
  have hpnotdirs : w.dirs.contains p = false := by
    have h := hself
    simp [dirExists, hpne] at h
    simpa using h
  have hwcd : dirExists { w with dirs := ancestors q ++ w.dirs } p = false := by
    simp only [dirExists]
    simp [hpne, hpnotanc, List.elem_eq_mem] at hpnotdirs ⊢
    exact hpnotdirs
  have hdirq : dirExists { w with dirs := ancestors q ++ w.dirs } q = true := by
    simp [dirExists, List.elem_eq_mem, List.mem_append, self_mem_ancestors hqne]
  obtain ⟨hok, hdirs, htr⟩ := saveOTW_nofault_ok hwcf hwcd
    (Or.inr ⟨q, hq, hdirq⟩)
  rw [hsave]
  refine ⟨hok, ?_, by simpa using htr⟩
  intro r hr
  have : dirExists { w with dirs := ancestors q ++ w.dirs } r = true := by
    simp [dirExists, List.elem_eq_mem, List.mem_append, hr]
  rw [dirExists_congr r hdirs]
  exact this

theorem C7_witness :
    (Szafka.save natCodec (⟨["tmp", "x", "y", "z"]⟩ : Szafka Nat) 2
      ⟨[["tmp"]], [], []⟩).1 = .ok ()
    ∧ (∀ r ∈ ancestors ["tmp", "x", "y"],
        dirExists (Szafka.save natCodec (⟨["tmp", "x", "y", "z"]⟩ : Szafka Nat) 2
          ⟨[["tmp"]], [], []⟩).2.1 r = true)
    ∧ (Szafka.save natCodec (⟨["tmp", "x", "y", "z"]⟩ : Szafka Nat) 2
        ⟨[["tmp"]], [], []⟩).2.2
      = [.serialize, .createDirs ["tmp", "x", "y"], .openW ["tmp", "x", "y", "z"],
         .truncate ["tmp", "x", "y", "z"], .write ["tmp", "x", "y", "z"] "xxx"] :=
  C7_save_creates_parents natCodec ["tmp", "x", "y", "z"] 2 ⟨[["tmp"]], [], []⟩
    ["tmp", "x", "y"] "xxx" rfl (by decide) (by decide) (by decide) (by decide) (by decide)

/-- C8: `save` performs serialize, conditional directory creation, open
(write+create, no truncate-on-open), explicit truncate, full write — in
exactly this order, each step a possible failure point returning its own
error kind (here exhibited by injecting a fault at each step in turn),
and on the success path no step is reordered or skipped (directory
creation happening exactly when the parent was absent). -/
theorem C8_save_step_order {T : Type} (c : Codec T) (s : Szafka T) (v : T) (w : World) :
    (∀ e, c.encode v = .error e →
      Szafka.save c s v w = (.error (.SerdeError e), w, [.serialize]))
    ∧ (∀ str q r, c.encode v = .ok str → parent s.path = some q →
        pathExists w q = false → w.faults = true :: r →
        Szafka.save c s v w
          = (.error (.CreateParentError .other), { w with faults := r },
             [.serialize, .createDirs q]))
    ∧ (∀ str q r, c.encode v = .ok str → parent s.path = some q →
        pathExists w q = true → w.faults = true :: r →
        Szafka.save c s v w
          = (.error (.OpenFileError .other), { w with faults := r },
             [.serialize, .openW s.path]))
    ∧ (∀ str q r, c.encode v = .ok str → parent s.path = some q →
        pathExists w q = true → dirExists w s.path = false →
        fileExists w s.path = true → w.faults = false :: true :: r →
        Szafka.save c s v w
          = (.error (.ChangeFileLengthError .other), { w with faults := r },
             [.serialize, .openW s.path, .truncate s.path]))
    ∧ (∀ str q r, c.encode v = .ok str → parent s.path = some q →
        pathExists w q = true → dirExists w s.path = false →
        fileExists w s.path = true → w.faults = false :: false :: true :: r →
        Szafka.save c s v w
          = (.error (.WriteFileError .other), setFile { w with faults := r } s.path "",
             [.serialize, .openW s.path, .truncate s.path, .write s.path str]))
    ∧ ((Szafka.save c s v w).1 = .ok () → ∃ str pre, c.encode v = .ok str
        ∧ (pre = [] ∨ ∃ q, parent s.path = some q ∧ pathExists w q = false
            ∧ pre = [Ev.createDirs q])
        ∧ (Szafka.save c s v w).2.2
            = [Ev.serialize] ++ pre ++ [Ev.openW s.path, Ev.truncate s.path,
               Ev.write s.path str]) := by
  refine ⟨?_, ?_, ?_, ?_, ?_, ?_⟩
  · intro e henc
    simp [Szafka.save, henc]
  · intro str q r henc hq hpq hfa
    have hcd : fsCreateDirAll w q = (.error .other, { w with faults := r }) := by
      simp [fsCreateDirAll, popFault_of_cons hfa]
    simp [Szafka.save, henc, hq, hpq, hcd]
  · intro str q r henc hq hpq hfa
    have hopen : fsOpenWrite w s.path = (.error .other, { w with faults := r }) := by
      simp [fsOpenWrite, popFault_of_cons hfa]
    simp [Szafka.save, henc, hq, hpq, saveOpenTruncWrite, hopen]
  · intro str q r henc hq hpq hd hfe hfa
    have hd0 : dirExists { w with faults := (true :: r : List Bool) } s.path = false := hd
    have hfe0 : fileExists { w with faults := (true :: r : List Bool) } s.path = true := hfe
    have hopen : fsOpenWrite w s.path = (.ok (), { w with faults := true :: r }) := by
      simp [fsOpenWrite, popFault_of_cons hfa, hd0, hfe0]
    have hsl : fsSetLen0 { w with faults := (true :: r : List Bool) } s.path
        = (.error .other, { w with faults := r }) := rfl
    simp [Szafka.save, henc, hq, hpq, saveOpenTruncWrite, hopen, hsl]
  · intro str q r henc hq hpq hd hfe hfa
    have hd0 : dirExists { w with faults := (false :: true :: r : List Bool) } s.path
        = false := hd
    have hfe0 : fileExists { w with faults := (false :: true :: r : List Bool) } s.path
        = true := hfe
    have hopen : fsOpenWrite w s.path = (.ok (), { w with faults := false :: true :: r }) := by
      simp [fsOpenWrite, popFault_of_cons hfa, hd0, hfe0]
    have hsl : fsSetLen0 { w with faults := (false :: true :: r : List Bool) } s.path
        = (.ok (), setFile { w with faults := true :: r } s.path "") := rfl
    have hwr : fsWriteAll (setFile { w with faults := (true :: r : List Bool) } s.path "")
          s.path str
        = (.error .other, setFile { w with faults := r } s.path "") := rfl
    simp [Szafka.save, henc, hq, hpq, saveOpenTruncWrite, hopen, hsl, hwr]
  · intro hok
    obtain ⟨str, henc, hfiles, hdir, hfau, pre, hpre, htr⟩ := save_ok_shape hok
    exact ⟨str, pre, henc, hpre, htr⟩

theorem C8_witness :
    Szafka.save badCodec (⟨["tmp", "x"]⟩ : Szafka Nat) 0 ⟨[["tmp"]], [], []⟩
      = (.error (.SerdeError "serde failure"), ⟨[["tmp"]], [], []⟩, [.serialize])
    ∧ Szafka.save natCodec (⟨["a", "b"]⟩ : Szafka Nat) 2 ⟨[], [], [true]⟩
      = (.error (.CreateParentError .other), ⟨[], [], []⟩, [.serialize, .createDirs ["a"]])
    ∧ Szafka.save natCodec (⟨["tmp", "x"]⟩ : Szafka Nat) 2 ⟨[["tmp"]], [], [true]⟩
      = (.error (.OpenFileError .other), ⟨[["tmp"]], [], []⟩,
         [.serialize, .openW ["tmp", "x"]])
    ∧ Szafka.save natCodec (⟨["tmp", "x"]⟩ : Szafka Nat) 2
        ⟨[["tmp"]], [(["tmp", "x"], "old")], [false, true]⟩
      = (.error (.ChangeFileLengthError .other), ⟨[["tmp"]], [(["tmp", "x"], "old")], []⟩,
         [.serialize, .openW ["tmp", "x"], .truncate ["tmp", "x"]])
    ∧ Szafka.save natCodec (⟨["tmp", "x"]⟩ : Szafka Nat) 2
        ⟨[["tmp"]], [(["tmp", "x"], "old")], [false, false, true]⟩
      = (.error (.WriteFileError .other),
         setFile ⟨[["tmp"]], [(["tmp", "x"], "old")], []⟩ ["tmp", "x"] "",
         [.serialize, .openW ["tmp", "x"], .truncate ["tmp", "x"],
          .write ["tmp", "x"] "xxx"]) := by
  refine ⟨?_, ?_, ?_, ?_, ?_⟩
  · exact (C8_save_step_order badCodec (⟨["tmp", "x"]⟩ : Szafka Nat) 0
      ⟨[["tmp"]], [], []⟩).1 "serde failure" rfl
  · exact (C8_save_step_order natCodec (⟨["a", "b"]⟩ : Szafka Nat) 2
      ⟨[], [], [true]⟩).2.1 "xxx" ["a"] [] (by decide) (by decide) (by decide) rfl
  · exact (C8_save_step_order natCodec (⟨["tmp", "x"]⟩ : Szafka Nat) 2
      ⟨[["tmp"]], [], [true]⟩).2.2.1 "xxx" ["tmp"] [] (by decide) (by decide)
      (by decide) rfl
  · exact (C8_save_step_order natCodec (⟨["tmp", "x"]⟩ : Szafka Nat) 2
      ⟨[["tmp"]], [(["tmp", "x"], "old")], [false, true]⟩).2.2.2.1 "xxx" ["tmp"] []
      (by decide) (by decide) (by decide) (by decide) (by decide) rfl
  · exact (C8_save_step_order natCodec (⟨["tmp", "x"]⟩ : Szafka Nat) 2
      ⟨[["tmp"]], [(["tmp", "x"], "old")], [false, false, true]⟩).2.2.2.2.1 "xxx" ["tmp"] []
      (by decide) (by decide) (by decide) (by decide) (by decide) rfl
